import Mathlib

/-!
Verification of the resource object model and property serialization engine
(`pkg/resource/resource_object.go`) and the stack import command
(`cmd/stack_import.go`).

Runtime objects (`rt.Object`) are embedded as a single inductive `RObj`
carrying an identity tag `oid` (standing for the Go pointer, so that the
pointer comparison `comp.Sources[0] == resobj` becomes comparison of tags,
with `none` standing for a nil pointer), a type description `LType`
(standing for `symbols.Type`), a primitive payload, a computed-value
payload, an array payload and a property list.  Functions that mutate a
live object in Go are embedded as functions returning the updated object;
`contract.Assert` / `contract.Require` failures (invariant violations) are
embedded as `Option.none` results.
-/

/-- Type descriptions, standing for `symbols.Type`.  `cls name isRes` is a
class type; `isRes` records whether `predef.IsResourceType` holds of it.
`pointer` stands for the remaining symbol types that the conversion engine
does not recognize. -/
inductive LType : Type where
  | null
  | bool
  | number
  | string
  | object
  | dynamic
  | array (elem : LType)
  | mapTy (dom cod : LType)
  | cls (name : String) (isRes : Bool)
  | func
  | computed (elem : LType)
  | pointer (elem : LType)

/-- Primitive payload of a runtime object. -/
inductive Prim : Type where
  | pnone
  | pbool (b : Bool)
  | pnum (n : Int)
  | pstr (s : String)

/-- Payload of a computed runtime value: `expr` is `comp.Expr` (the
computation has a free expression) and `sources` is `comp.Sources`, a list
of object pointers, each either nil (`none`) or the identity tag of an
object (`some oid`). -/
structure CompInfo : Type where
  expr : Bool
  sources : List (Option Nat)

/-- A live runtime object (`rt.Object`): identity tag, type, primitive
payload, computed payload, array elements and properties. -/
inductive RObj : Type where
  | mk (oid : Nat) (ty : LType) (prim : Prim) (comp : CompInfo)
      (arr : List RObj) (props : List (String × RObj))

def RObj.oid : RObj → Nat
  | .mk i _ _ _ _ _ => i

def RObj.ty : RObj → LType
  | .mk _ t _ _ _ _ => t

def RObj.prim : RObj → Prim
  | .mk _ _ p _ _ _ => p

def RObj.comp : RObj → CompInfo
  | .mk _ _ _ c _ _ => c

def RObj.arr : RObj → List RObj
  | .mk _ _ _ _ a _ => a

def RObj.props : RObj → List (String × RObj)
  | .mk _ _ _ _ _ ps => ps

/-- `predef.IsResourceType`: the type is a class with the resource flag. -/
def isResourceTy : LType → Bool
  | .cls _ isRes => isRes
  | _ => false

/-- `rt.Object.IsNull`. -/
def RObj.isNull (o : RObj) : Bool :=
  match o.ty with
  | .null => true
  | _ => false

/-- `rt.Object.IsString`. -/
def RObj.isString (o : RObj) : Bool :=
  match o.ty with
  | .string => true
  | _ => false

/-- `rt.Object.IsComputed`. -/
def RObj.isComputed (o : RObj) : Bool :=
  match o.ty with
  | .computed _ => true
  | _ => false

/-- `rt.Object.BoolValue`. -/
def RObj.boolVal (o : RObj) : Bool :=
  match o.prim with
  | .pbool b => b
  | _ => false

/-- `rt.Object.NumberValue` (Go `float64` values are embedded as `Int`;
the engine only moves them around, never computes with them). -/
def RObj.numVal (o : RObj) : Int :=
  match o.prim with
  | .pnum n => n
  | _ => 0

/-- `rt.Object.StringValue`. -/
def RObj.strVal (o : RObj) : String :=
  match o.prim with
  | .pstr s => s
  | _ => ""

/-- Association-list lookup over a property list (`GetPropertyAddr` with
`init = false`: `none` when the property does not exist). -/
def lookupProp : List (String × RObj) → String → Option RObj
  | [], _ => none
  | (k, v) :: rest, key => if k = key then some v else lookupProp rest key

def RObj.getProp? (o : RObj) (k : String) : Option RObj :=
  lookupProp o.props k

/-- Replace the binding of `key` (or append it), the effect of
`GetPropertyAddr(key, true, true)` followed by `prop.Set(v)`. -/
def setPropList : List (String × RObj) → String → RObj → List (String × RObj)
  | [], key, v => [(key, v)]
  | (k, w) :: rest, key, v =>
      if k = key then (k, v) :: rest else (k, w) :: setPropList rest key v

def RObj.setProp (o : RObj) (k : String) (v : RObj) : RObj :=
  match o with
  | .mk i t p c a ps => .mk i t p c a (setPropList ps k v)

/-- The `rt.Null` singleton. -/
def rtNull : RObj := .mk 0 .null .pnone ⟨false, []⟩ [] []

/-- `rt.Bools[b]`. -/
def rtBool (b : Bool) : RObj := .mk 0 .bool (.pbool b) ⟨false, []⟩ [] []

/-- `rt.NewNumberObject`. -/
def rtNumber (n : Int) : RObj := .mk 0 .number (.pnum n) ⟨false, []⟩ [] []

/-- `rt.NewStringObject`. -/
def rtString (s : String) : RObj := .mk 0 .string (.pstr s) ⟨false, []⟩ [] []

/-- `rt.NewArrayObject(types.Dynamic, ...)`. -/
def rtArray (elems : List RObj) : RObj :=
  .mk 0 (.array .dynamic) .pnone ⟨false, []⟩ elems []

/-- `rt.NewObject(types.Dynamic, nil, nil, nil)`. -/
def rtDynObject : RObj := .mk 0 .dynamic .pnone ⟨false, []⟩ [] []

/-- The declarative property values (`resource.PropertyValue`), a closed
variant.  The Go zero value `PropertyValue{}` has a nil payload and hence
satisfies `IsNull`; it is embedded as `.null`. -/
inductive PropertyValue : Type where
  | null
  | bool (b : Bool)
  | number (n : Int)
  | string (s : String)
  | array (elems : List PropertyValue)
  | object (entries : List (String × PropertyValue))
  | computed (elem : PropertyValue)
  | output (elem : PropertyValue)

/-- `resource.PropertyMap`, in the canonical (stable) key order it is
produced in. -/
def PropertyMap : Type := List (String × PropertyValue)

def MakeComputed (v : PropertyValue) : PropertyValue := .computed v

def MakeOutput (v : PropertyValue) : PropertyValue := .output v

/-- The Go zero value `PropertyValue{}` returned for function-typed
properties: its payload is nil, so it is the null property. -/
def zeroPropertyValue : PropertyValue := .null

/-- `IsResourceObject`: non-nil and of resource type. -/
def IsResourceObject : Option RObj → Bool
  | none => false
  | some o => isResourceTy o.ty

/-- The `id` property key (`IDProperty`). -/
def IDProperty : String := "id"

def Prim.pboolVal : Prim → Bool
  | .pbool b => b
  | _ => false

def Prim.pnumVal : Prim → Int
  | .pnum n => n
  | _ => 0

def Prim.pstrVal : Prim → String
  | .pstr s => s
  | _ => ""

/-- `getIDObject` fetches the ID off the target object.  Outer `none` is
an assertion failure (not a resource object, or an ID object that is
neither a string nor computed); `some none` means the object has no `id`
property; `some (some idobj)` is the ID object. -/
def getIDObject (obj : RObj) : Option (Option RObj) :=
  if IsResourceObject (some obj) then
    match obj.getProp? IDProperty with
    | none => some none
    | some id => if id.isString || id.isComputed then some (some id) else none
  else none

/-- The Go pointer comparison `comp.Sources[0] == resobj`: a nil source
pointer equals a nil `resobj`; a non-nil source equals a non-nil `resobj`
exactly when their identity tags agree. -/
def sourceIsResObj : Option Nat → Option RObj → Bool
  | none, none => true
  | some i, some r => i == r.oid
  | _, _ => false

mutual

/-- `copyObjectProperty`: create a single property value out of a runtime
object, dispatching on its type exactly as the source does; `none` is an
invariant violation (assertion failure). -/
def copyObjectProperty (resobj : Option RObj) : RObj → Option PropertyValue
  | .mk oid ty prim comp arr props =>
    if isResourceTy ty then
      -- Resource references expand to that resource's ID.
      match getIDObject (.mk oid ty prim comp arr props) with
      | none => none
      | some (some idobj) =>
          if idobj.isString then some (.string idobj.strVal)
          else some (MakeComputed (.string ""))
      | some none => some (MakeComputed (.string ""))
    else
      match ty with
      | .null => some .null
      | .bool => some (.bool (Prim.pboolVal prim))
      | .number => some (.number (Prim.pnumVal prim))
      | .string => some (.string (Prim.pstrVal prim))
      | .object =>
          match copyObjectProperties none props with
          | some m => some (.object m)
          | none => none
      | .dynamic =>
          match copyObjectProperties none props with
          | some m => some (.object m)
          | none => none
      | .array _ =>
          match copyArray arr with
          | some elems => some (.array elems)
          | none => none
      | .mapTy _ _ =>
          match copyObjectProperties none props with
          | some m => some (.object m)
          | none => none
      | .cls _ _ =>
          match copyObjectProperties none props with
          | some m => some (.object m)
          | none => none
      | .computed elem =>
          -- Output exactly when: no free expression, a single source, and
          -- that source is the resource object being captured.
          let isOut : Bool :=
            !comp.expr && (comp.sources.length == 1) &&
              sourceIsResObj (comp.sources.headD none) resobj
          let mk := if isOut then MakeOutput else MakeComputed
          match elem with
          | .null => some (mk .null)
          | .bool => some (mk (.bool false))
          | .number => some (mk (.number 0))
          | .string => some (mk (.string ""))
          | .object => some (mk (.object []))
          | .dynamic => some (mk (.object []))
          | .array _ => some (mk (.array []))
          | .cls _ _ => some (mk (.object []))
          | _ => none
      | .func => some zeroPropertyValue
      | .pointer _ => none

/-- The element loop of the `*symbols.ArrayType` case; every element is
cloned with a nil resource-object context. -/
def copyArray : List RObj → Option (List PropertyValue)
  | [] => some []
  | e :: rest =>
      match copyObjectProperty none e, copyArray rest with
      | some pv, some pvs => some (pv :: pvs)
      | _, _ => none

/-- `copyObjectProperties`: copy a property list in its stable order. -/
def copyObjectProperties (resobj : Option RObj) :
    List (String × RObj) → Option (List (String × PropertyValue))
  | [] => some []
  | (k, v) :: rest =>
      match copyObjectProperty resobj v, copyObjectProperties resobj rest with
      | some pv, some rest2 => some ((k, pv) :: rest2)
      | _, _ => none

end

/-- `copyObject`. -/
def copyObject (resobj : Option RObj) (obj : RObj) :
    Option (List (String × PropertyValue)) :=
  copyObjectProperties resobj obj.props

mutual

/-- `createRuntimeProperty` translates a property value into a runtime
object; presenting a computed or output value is an invariant violation
(the `v.IsObject()` assertion), embedded as `none`. -/
def createRuntimeProperty : PropertyValue → Option RObj
  | .null => some rtNull
  | .bool b => some (rtBool b)
  | .number n => some (rtNumber n)
  | .string s => some (rtString s)
  | .array elems =>
      match createRuntimeArray elems with
      | some objs => some (rtArray objs)
      | none => none
  | .object entries => setRuntimeProperties rtDynObject entries
  | .computed _ => none
  | .output _ => none

/-- The element loop of the array case of `createRuntimeProperty`. -/
def createRuntimeArray : List PropertyValue → Option (List RObj)
  | [] => some []
  | v :: rest =>
      match createRuntimeProperty v, createRuntimeArray rest with
      | some o, some os => some (o :: os)
      | _, _ => none

/-- `setRuntimeProperties` stores a property map onto a runtime object:
each destination property is initialized if missing, and the incoming
value is written only if the destination currently holds null. -/
def setRuntimeProperties (obj : RObj) :
    List (String × PropertyValue) → Option RObj
  | [] => some obj
  | (k, v) :: rest =>
      let cur := (obj.getProp? k).getD rtNull
      if cur.isNull then
        match createRuntimeProperty v with
        | some w => setRuntimeProperties (obj.setProp k w) rest
        | none => none
      else setRuntimeProperties obj rest

end

/-- The resource `Object` of `pkg/resource/resource_object.go`: a URN
(the empty string when not yet assigned) and the live object. -/
structure Object : Type where
  urn : String
  obj : RObj

def Object.URN (r : Object) : String := r.urn

def Object.Obj (r : Object) : RObj := r.obj

/-- `symbols.Type.TypeToken`, printed as a token string. -/
def typeToken : LType → String
  | .null => "null"
  | .bool => "bool"
  | .number => "number"
  | .string => "string"
  | .object => "object"
  | .dynamic => "dynamic"
  | .array e => "[]" ++ typeToken e
  | .mapTy d c => "map[" ++ typeToken d ++ "]" ++ typeToken c
  | .cls n _ => n
  | .func => "function"
  | .computed e => "computed<" ++ typeToken e ++ ">"
  | .pointer e => "*" ++ typeToken e

def Object.Type (r : Object) : String := typeToken r.obj.ty

/-- Modelled from the spec: `HasURN` — a URN is set at most once and only
while empty, so a resource has a URN exactly when its `urn` field is
non-empty. -/
def HasURN (r : Object) : Bool := r.urn != ""

/-- `Object.ID` fetches the object's ID; `none` is an invariant violation
(`getIDObject` fails, the ID object is missing, or the ID object is not a
string). -/
def Object.ID (r : Object) : Option String :=
  match getIDObject r.obj with
  | none => none
  | some none => none
  | some (some idobj) =>
      if idobj.isString then some idobj.strVal else none

/-- `Object.HasID` returns whether the object already has an ID;
`none` is an invariant violation inside `getIDObject`. -/
def Object.HasID (r : Object) : Option Bool :=
  match getIDObject r.obj with
  | none => none
  | some none => some false
  | some (some idobj) => some (!idobj.isNull)

/-- `Object.SetID` assigns an ID; the current ID property (null when
missing) must be null or computed, otherwise it is an invariant
violation. -/
def Object.SetID (r : Object) (id : String) : Option Object :=
  let cur := (r.obj.getProp? IDProperty).getD rtNull
  if cur.isNull || cur.isComputed then
    some { r with obj := r.obj.setProp IDProperty (rtString id) }
  else none

/-- `Object.SetURN` assigns a URN; doing so twice is an invariant
violation (`contract.Requiref(!HasURN(r), ...)`). -/
def Object.SetURN (r : Object) (m : String) : Option Object :=
  if HasURN r then none else some { r with urn := m }

/-- `Object.CopyProperties`: capture with the object itself as the
resource-object context. -/
def Object.CopyProperties (r : Object) :
    Option (List (String × PropertyValue)) :=
  copyObject (some r.obj) r.obj

/-- `Object.SetProperties`. -/
def Object.SetProperties (r : Object) (props : List (String × PropertyValue)) :
    Option Object :=
  match setRuntimeProperties r.obj props with
  | some o => some { r with obj := o }
  | none => none

/-- Modelled from the spec: `State` — an immutable record of resource
type, URN, ID, inputs and outputs (`NewState` populates it field by
field). -/
structure State : Type where
  type : String
  urn : String
  id : String
  inputs : List (String × PropertyValue)
  outputs : List (String × PropertyValue)

def NewState (t urn id : String)
    (inputs outputs : List (String × PropertyValue)) : State :=
  { type := t, urn := urn, id := id, inputs := inputs, outputs := outputs }

/-- `Object.Update`: requires a URN, captures inputs before any mutation,
assigns the ID, hydrates the outputs, and returns a state snapshot built
from the (mutated) receiver together with the captured inputs and the
supplied outputs. -/
def Object.Update (r : Object) (id : String)
    (outputs : List (String × PropertyValue)) : Option (Object × State) :=
  if HasURN r then
    match r.CopyProperties with
    | none => none
    | some inputs =>
        match r.SetID id with
        | none => none
        | some r1 =>
            match r1.SetProperties outputs with
            | none => none
            | some r2 =>
                some (r2, NewState r2.Type r2.URN id inputs outputs)
  else none

/-!
The stack import command (`cmd/stack_import.go`): validation of the
deserialized snapshot against the target stack, and stripping of pending
operations.
-/

/-- Modelled from the spec: the stack name embedded in a URN of the shape
`urn:pulumi:<stack>::...` (`URN.Stack()`). -/
def urnStack (urn : String) : String :=
  ((urn.drop 11).splitOn "::").headD ""

/-- A resource entry of a deserialized snapshot, as far as the import
command inspects it: its URN. -/
structure SnapResource : Type where
  urn : String

/-- A pending operation entry of a deserialized snapshot: its operation
type and the URN of the resource it operates on. -/
structure PendingOp : Type where
  opType : String
  resourceURN : String

/-- A deserialized deployment snapshot, as far as the import command
inspects it. -/
structure Snapshot : Type where
  resources : List SnapResource
  pendingOperations : List PendingOp

/-- The stack-mismatch message for one resource (quoting elided). -/
def mismatchMsg (urn target : String) : String :=
  "resource " ++ urn ++ " is from a different stack (" ++ urnStack urn ++
    " != " ++ target ++ ")"

/-- The closing error appended when any mismatch was collected. -/
def forceAdvice : String :=
  "importing this file could be dangerous; rerun with --force to proceed anyway"

/-- The warning for one stripped pending operation (quoting elided). -/
def pendingOpMsg (op : PendingOp) : String :=
  "removing pending operation " ++ op.opType ++ " on " ++ op.resourceURN ++
    " from snapshot"

/-- The outcome of the pre-import validation: either the import proceeds
(with the warnings emitted along the way) or it fails with the collected
errors. -/
inductive ImportOutcome : Type where
  | proceed (warnings : List String)
  | fail (errors : List String)

/-- The resource loop of the import command: walk the snapshot's
resources in order; each resource whose URN's stack differs from the
target stack contributes a warning when `force` is set, and otherwise an
error accumulated via `multierror.Append`. -/
def collectMismatches (force : Bool) (target : String) :
    List SnapResource → List String × List String
  | [] => ([], [])
  | r :: rest =>
      let acc := collectMismatches force target rest
      if urnStack r.urn != target then
        if force then (acc.1, mismatchMsg r.urn target :: acc.2)
        else (mismatchMsg r.urn target :: acc.1, acc.2)
      else acc

/-- The mismatch check of the import command: after the loop, a non-empty
error accumulation aborts the import with all collected errors plus the
closing `--force` advice; otherwise the import proceeds. -/
def stackImportCheck (force : Bool) (target : String)
    (resources : List SnapResource) : ImportOutcome :=
  let acc := collectMismatches force target resources
  if acc.1.isEmpty then .proceed acc.2
  else .fail (acc.1 ++ [forceAdvice])

/-- The pending-operation stripping step of the import command: when the
snapshot carries pending operations, one warning is emitted per entry and
the list is cleared before the deployment is re-serialized. -/
def stripPendingOperations (s : Snapshot) : Snapshot × List String :=
  if s.pendingOperations.isEmpty then (s, [])
  else
    ({ s with pendingOperations := [] },
      s.pendingOperations.map pendingOpMsg)

/-!
Spec-side definitions for the computed-value dispatch, written from the
spec's words so they can be compared with the behaviour of the source
translation above.
-/

/-- The declared element kinds for which the capture engine produces a
wrapped placeholder (the kinds whose zero values the spec lists). -/
def elemHandled : LType → Bool
  | .null => true
  | .bool => true
  | .number => true
  | .string => true
  | .object => true
  | .dynamic => true
  | .array _ => true
  | .cls _ _ => true
  | _ => false

/-- The zero value of a declared element kind, per the spec: false, zero,
empty string, empty object, empty array, null. -/
def specZero : LType → PropertyValue
  | .null => .null
  | .bool => .bool false
  | .number => .number 0
  | .string => .string ""
  | .object => .object []
  | .dynamic => .object []
  | .array _ => .array []
  | .cls _ _ => .object []
  | _ => .null

/-- The spec's output condition: the underlying computation has no free
expression, depends on exactly one source, and that one source is the
resource object being captured. -/
def specSelfDerived (comp : CompInfo) (resobj : Option RObj) : Bool :=
  !comp.expr && (comp.sources.length == 1) &&
    sourceIsResObj (comp.sources.headD none) resobj

/-! Helper lemmas about property lists and hydration. -/

theorem lookupProp_setPropList_self (ps : List (String × RObj)) (k : String)
    (v : RObj) : lookupProp (setPropList ps k v) k = some v := by
  induction ps with
  | nil => simp [setPropList, lookupProp]
  | cons hd tl ih =>
      obtain ⟨k1, w⟩ := hd
      by_cases hk : k1 = k
      · simp [setPropList, lookupProp, hk]
      · simp [setPropList, lookupProp, hk, ih]

theorem lookupProp_setPropList_other (ps : List (String × RObj))
    (k k' : String) (v : RObj) (hne : k' ≠ k) :
    lookupProp (setPropList ps k v) k' = lookupProp ps k' := by
  induction ps with
  | nil => simp [setPropList, lookupProp, Ne.symm hne]
  | cons hd tl ih =>
      obtain ⟨k1, w⟩ := hd
      by_cases hk : k1 = k
      · subst hk
        simp [setPropList, lookupProp, Ne.symm hne]
      · simp [setPropList, lookupProp, hk, ih]

theorem setProp_ty (o : RObj) (k : String) (v : RObj) :
    (o.setProp k v).ty = o.ty := by
  obtain ⟨i, t, p, c, a, ps⟩ := o
  simp [RObj.setProp, RObj.ty]

theorem getProp?_setProp_self (o : RObj) (k : String) (v : RObj) :
    (o.setProp k v).getProp? k = some v := by
  obtain ⟨i, t, p, c, a, ps⟩ := o
  simp [RObj.setProp, RObj.getProp?, RObj.props, lookupProp_setPropList_self]

theorem getProp?_setProp_other (o : RObj) (k k' : String) (v : RObj)
    (hne : k' ≠ k) : (o.setProp k v).getProp? k' = o.getProp? k' := by
  obtain ⟨i, t, p, c, a, ps⟩ := o
  simp [RObj.setProp, RObj.getProp?, RObj.props,
    lookupProp_setPropList_other _ _ _ _ hne]

theorem setRuntimeProperties_ty (l : List (String × PropertyValue)) :
    ∀ (obj obj' : RObj), setRuntimeProperties obj l = some obj' →
      obj'.ty = obj.ty := by
  induction l with
  | nil =>
      intro obj obj' h
      simp [setRuntimeProperties] at h
      simp [h]
  | cons hd tl ih =>
      intro obj obj' h
      obtain ⟨k, v⟩ := hd
      simp only [setRuntimeProperties] at h
      by_cases hnull : ((obj.getProp? k).getD rtNull).isNull
      · simp only [hnull, if_true] at h
        cases hw : createRuntimeProperty v with
        | none => rw [hw] at h; cases h
        | some w =>
            rw [hw] at h
            have := ih _ _ h
            rw [this, setProp_ty]
      · simp only [hnull, if_false] at h
        exact ih _ _ h

theorem setRuntimeProperties_preserve (l : List (String × PropertyValue)) :
    ∀ (obj obj' : RObj) (k : String) (v : RObj),
      obj.getProp? k = some v → v.isNull = false →
      setRuntimeProperties obj l = some obj' →
      obj'.getProp? k = some v := by
  induction l with
  | nil =>
      intro obj obj' k v hget hnn h
      simp [setRuntimeProperties] at h
      rw [← h]; exact hget
  | cons hd tl ih =>
      intro obj obj' k v hget hnn h
      obtain ⟨k1, v1⟩ := hd
      simp only [setRuntimeProperties] at h
      by_cases hnull : ((obj.getProp? k1).getD rtNull).isNull
      · simp only [hnull, if_true] at h
        cases hw : createRuntimeProperty v1 with
        | none => rw [hw] at h; cases h
        | some w =>
            rw [hw] at h
            have hne : k ≠ k1 := by
              intro he
              subst he
              rw [hget] at hnull
              simp [Option.getD] at hnull
              rw [hnull] at hnn
              cases hnn
            refine ih _ _ k v ?_ hnn h
            rw [getProp?_setProp_other _ _ _ _ hne]
            exact hget
      · simp only [hnull, if_false] at h
        exact ih _ _ k v hget hnn h

theorem setRuntimeProperties_untouched (l : List (String × PropertyValue)) :
    ∀ (obj obj' : RObj) (k : String),
      k ∉ l.map Prod.fst →
      setRuntimeProperties obj l = some obj' →
      obj'.getProp? k = obj.getProp? k := by
  induction l with
  | nil =>
      intro obj obj' k _ h
      simp [setRuntimeProperties] at h
      rw [h]
  | cons hd tl ih =>
      intro obj obj' k hk h
      obtain ⟨k1, v1⟩ := hd
      simp only [List.map, List.mem_cons, not_or] at hk
      obtain ⟨hne, hrest⟩ := hk
      simp only [setRuntimeProperties] at h
      by_cases hnull : ((obj.getProp? k1).getD rtNull).isNull
      · simp only [hnull, if_true] at h
        cases hw : createRuntimeProperty v1 with
        | none => rw [hw] at h; cases h
        | some w =>
            rw [hw] at h
            rw [ih _ _ k hrest h]
            exact getProp?_setProp_other _ _ _ _ hne
      · simp only [hnull, if_false] at h
        exact ih _ _ k hrest h

theorem setRuntimeProperties_writes (l : List (String × PropertyValue)) :
    ∀ (obj obj' : RObj) (k : String) (v : PropertyValue) (w : RObj),
      (k, v) ∈ l → (l.map Prod.fst).Nodup →
      ((obj.getProp? k).getD rtNull).isNull = true →
      createRuntimeProperty v = some w →
      setRuntimeProperties obj l = some obj' →
      obj'.getProp? k = some w := by
  induction l with
  | nil =>
      intro obj obj' k v w hmem _ _ _ _
      cases hmem
  | cons hd tl ih =>
      intro obj obj' k v w hmem hnd hnull hw h
      obtain ⟨k1, v1⟩ := hd
      simp only [List.map, List.nodup_cons] at hnd
      obtain ⟨hk1notin, hndtl⟩ := hnd
      simp only [setRuntimeProperties] at h
      rcases List.mem_cons.mp hmem with hhd | htl
      · injection hhd with he1 he2
        subst he1; subst he2
        simp only [hnull, if_true] at h
        rw [hw] at h
        rw [setRuntimeProperties_untouched tl _ _ k hk1notin h]
        exact getProp?_setProp_self _ _ _
      · have hne : k ≠ k1 := by
          intro he
          subst he
          exact hk1notin (List.mem_map.mpr ⟨(k, v), htl, rfl⟩)
        by_cases hnull1 : ((obj.getProp? k1).getD rtNull).isNull
        · simp only [hnull1, if_true] at h
          cases hw1 : createRuntimeProperty v1 with
          | none => rw [hw1] at h; cases h
          | some w1 =>
              rw [hw1] at h
              refine ih _ _ k v w htl hndtl ?_ hw h
              rw [getProp?_setProp_other _ _ _ _ hne]
              exact hnull
        · simp only [hnull1, if_false] at h
          exact ih _ _ k v w htl hndtl hnull hw h

/-- One-step characterization of the computed case of
`copyObjectProperty` for the handled element kinds. -/
theorem copyObjectProperty_computed_eq (resobj : Option RObj) (oid : Nat)
    (prim : Prim) (comp : CompInfo) (arr : List RObj)
    (props : List (String × RObj)) (elem : LType)
    (helem : elemHandled elem = true) :
    copyObjectProperty resobj (.mk oid (.computed elem) prim comp arr props) =
      some (if specSelfDerived comp resobj then MakeOutput (specZero elem)
            else MakeComputed (specZero elem)) := by
  cases elem <;>
    simp [copyObjectProperty, elemHandled, specZero, specSelfDerived,
      isResourceTy, apply_ite] at helem ⊢ <;>
    (split <;> simp_all)

theorem isComputed_not_isString (o : RObj) (h : o.isComputed = true) :
    o.isString = false := by
  obtain ⟨i, t, p, c, a, ps⟩ := o
  cases t <;> simp_all [RObj.isComputed, RObj.isString, RObj.ty]

theorem isString_not_isNull (o : RObj) (h : o.isString = true) :
    o.isNull = false := by
  obtain ⟨i, t, p, c, a, ps⟩ := o
  cases t <;> simp_all [RObj.isString, RObj.isNull, RObj.ty]

theorem isString_not_isComputed (o : RObj) (h : o.isString = true) :
    o.isComputed = false := by
  obtain ⟨i, t, p, c, a, ps⟩ := o
  cases t <;> simp_all [RObj.isString, RObj.isComputed, RObj.ty]

theorem collectMismatches_false_eq (target : String)
    (rs : List SnapResource) :
    collectMismatches false target rs =
      ((rs.filter fun r => urnStack r.urn != target).map
        fun r => mismatchMsg r.urn target, []) := by
  induction rs with
  | nil => rfl
  | cons r rest ih =>
      cases h : (urnStack r.urn != target) <;>
        simp [collectMismatches, h, ih, List.filter_cons]

theorem collectMismatches_true_eq (target : String)
    (rs : List SnapResource) :
    collectMismatches true target rs =
      ([], (rs.filter fun r => urnStack r.urn != target).map
        fun r => mismatchMsg r.urn target) := by
  induction rs with
  | nil => rfl
  | cons r rest ih =>
      cases h : (urnStack r.urn != target) <;>
        simp [collectMismatches, h, ih, List.filter_cons]

/-!
The claim theorems.
-/

/-- **C1.** For a resource object with a URN and an ID that is not yet
concretely assigned (null, computed, or missing), `Update(id, outputs)`
returns a state carrying the object's type, its URN, the supplied id, the
inputs captured from the live object before any mutation, and the
supplied outputs verbatim; afterward `HasID()` is true and `ID()` is the
supplied id.  Without a URN, `Update` fails with an invariant
violation. -/
theorem update_contract (r : Object) (id : String)
    (outputs inputs : List (String × PropertyValue)) (o2 : RObj)
    (hres : isResourceTy r.obj.ty = true)
    (hurn : HasURN r = true)
    (hid : (((r.obj.getProp? IDProperty).getD rtNull).isNull ||
        ((r.obj.getProp? IDProperty).getD rtNull).isComputed) = true)
    (hinp : r.CopyProperties = some inputs)
    (hout : setRuntimeProperties (r.obj.setProp IDProperty (rtString id))
        outputs = some o2) :
    r.Update id outputs =
      some ({ urn := r.urn, obj := o2 },
        { type := r.Type, urn := r.urn, id := id,
          inputs := inputs, outputs := outputs })
    ∧ Object.HasID { urn := r.urn, obj := o2 } = some true
    ∧ Object.ID { urn := r.urn, obj := o2 } = some id
    ∧ (∀ q : Object, HasURN q = false → q.Update id outputs = none) := by
  have hsetid : r.SetID id =
      some { r with obj := r.obj.setProp IDProperty (rtString id) } := by
    rw [Object.SetID]
    simp only [hid, if_true]
  have hsetprops :
      Object.SetProperties { r with obj := r.obj.setProp IDProperty (rtString id) }
        outputs = some { urn := r.urn, obj := o2 } := by
    simp [Object.SetProperties, hout]
  have hty : o2.ty = r.obj.ty := by
    rw [setRuntimeProperties_ty outputs _ _ hout, setProp_ty]
  have hidprop : o2.getProp? IDProperty = some (rtString id) :=
    setRuntimeProperties_preserve outputs _ _ IDProperty (rtString id)
      (getProp?_setProp_self _ _ _) rfl hout
  have hresobj : IsResourceObject (some o2) = true := by
    simp only [IsResourceObject]
    rw [hty]
    exact hres
  have hgid : getIDObject o2 = some (some (rtString id)) := by
    unfold getIDObject
    simp only [hresobj, if_true, hidprop]
    simp [rtString, RObj.isString, RObj.isComputed, RObj.ty]
  have hhasid : Object.HasID { urn := r.urn, obj := o2 } = some true := by
    simp [Object.HasID, hgid, rtString, RObj.isNull, RObj.ty]
  have hid2 : Object.ID { urn := r.urn, obj := o2 } = some id := by
    simp [Object.ID, hgid, rtString, RObj.isString, RObj.ty, RObj.strVal,
      RObj.prim]
  refine ⟨?_, hhasid, hid2, ?_⟩
  · simp [Object.Update, hurn, hinp, hsetid, hsetprops, Object.Type,
      Object.URN, NewState, hty]
  · intro q hq
    simp [Object.Update, hq]

/-- Witness for `update_contract` at a concrete resource object. -/
theorem update_contract_witness :
    Object.Update
        { urn := "urn:pulumi:s::t",
          obj := RObj.mk 1 (.cls "T" true) .pnone ⟨false, []⟩ []
            [("name", rtString "n")] }
        "i1" [("out", PropertyValue.string "v")] =
      some ({ urn := "urn:pulumi:s::t",
              obj := RObj.mk 1 (.cls "T" true) .pnone ⟨false, []⟩ []
                [("name", rtString "n"), ("id", rtString "i1"),
                  ("out", rtString "v")] },
        { type := "T", urn := "urn:pulumi:s::t", id := "i1",
          inputs := [("name", PropertyValue.string "n")],
          outputs := [("out", PropertyValue.string "v")] })
    ∧ Object.HasID
        { urn := "urn:pulumi:s::t",
          obj := RObj.mk 1 (.cls "T" true) .pnone ⟨false, []⟩ []
            [("name", rtString "n"), ("id", rtString "i1"),
              ("out", rtString "v")] } = some true
    ∧ Object.ID
        { urn := "urn:pulumi:s::t",
          obj := RObj.mk 1 (.cls "T" true) .pnone ⟨false, []⟩ []
            [("name", rtString "n"), ("id", rtString "i1"),
              ("out", rtString "v")] } = some "i1"
    ∧ Object.Update
        { urn := "",
          obj := RObj.mk 1 (.cls "T" true) .pnone ⟨false, []⟩ []
            [("name", rtString "n")] }
        "i1" [("out", PropertyValue.string "v")] = none := by
  have h := update_contract
    { urn := "urn:pulumi:s::t",
      obj := RObj.mk 1 (.cls "T" true) .pnone ⟨false, []⟩ []
        [("name", rtString "n")] }
    "i1" [("out", PropertyValue.string "v")]
    [("name", PropertyValue.string "n")]
    (RObj.mk 1 (.cls "T" true) .pnone ⟨false, []⟩ []
      [("name", rtString "n"), ("id", rtString "i1"), ("out", rtString "v")])
    rfl rfl rfl rfl rfl
  exact ⟨h.1, h.2.1, h.2.2.1, h.2.2.2 _ rfl⟩

/-- **C2.** Capturing a resource-typed value yields a String property equal
to the referenced resource's ID when that ID is assigned as a string, and
a Computed wrapper around an empty-string placeholder when the referenced
resource has no assigned ID (no id property, or an id still computed). -/
theorem resource_reference_capture (resobj : Option RObj) (obj : RObj)
    (hres : isResourceTy obj.ty = true) :
    (∀ idobj : RObj, obj.getProp? IDProperty = some idobj →
        idobj.isString = true →
        copyObjectProperty resobj obj = some (.string idobj.strVal))
    ∧ (obj.getProp? IDProperty = none →
        copyObjectProperty resobj obj = some (MakeComputed (.string "")))
    ∧ (∀ idobj : RObj, obj.getProp? IDProperty = some idobj →
        idobj.isComputed = true →
        copyObjectProperty resobj obj = some (MakeComputed (.string ""))) := by
  have hro : IsResourceObject (some obj) = true := by
    simp only [IsResourceObject]
    exact hres
  refine ⟨?_, ?_, ?_⟩
  · intro idobj hget hstr
    have hgid : getIDObject obj = some (some idobj) := by
      unfold getIDObject
      simp only [hro, if_true, hget, hstr, Bool.true_or, if_pos]
    obtain ⟨oid, ty, prim, comp, arr, props⟩ := obj
    simp only [RObj.ty] at hres
    simp [copyObjectProperty, hres, hgid, hstr]
  · intro hget
    have hgid : getIDObject obj = some none := by
      unfold getIDObject
      simp only [hro, if_true, hget]
    obtain ⟨oid, ty, prim, comp, arr, props⟩ := obj
    simp only [RObj.ty] at hres
    simp [copyObjectProperty, hres, hgid]
  · intro idobj hget hcomp
    have hgid : getIDObject obj = some (some idobj) := by
      unfold getIDObject
      simp only [hro, if_true, hget, hcomp, Bool.or_true, if_pos]
    obtain ⟨oid, ty, prim, comp, arr, props⟩ := obj
    simp only [RObj.ty] at hres
    simp [copyObjectProperty, hres, hgid, isComputed_not_isString idobj hcomp]

/-- Witness for `resource_reference_capture`: a resource reference with a
string ID captures as that ID; references whose target has a missing or a
computed ID capture as Computed(String). -/
theorem resource_reference_capture_witness :
    copyObjectProperty none
        (RObj.mk 4 (.cls "res" true) .pnone ⟨false, []⟩ []
          [("id", rtString "abc")]) =
      some (PropertyValue.string "abc")
    ∧ copyObjectProperty none
        (RObj.mk 4 (.cls "res" true) .pnone ⟨false, []⟩ [] []) =
      some (MakeComputed (PropertyValue.string ""))
    ∧ copyObjectProperty none
        (RObj.mk 4 (.cls "res" true) .pnone ⟨false, []⟩ []
          [("id", RObj.mk 6 (.computed .string) .pnone ⟨false, []⟩ [] [])]) =
      some (MakeComputed (PropertyValue.string "")) :=
  ⟨(resource_reference_capture none
      (RObj.mk 4 (.cls "res" true) .pnone ⟨false, []⟩ []
        [("id", rtString "abc")]) rfl).1 (rtString "abc") rfl rfl,
    (resource_reference_capture none
      (RObj.mk 4 (.cls "res" true) .pnone ⟨false, []⟩ [] []) rfl).2.1 rfl,
    (resource_reference_capture none
      (RObj.mk 4 (.cls "res" true) .pnone ⟨false, []⟩ []
        [("id", RObj.mk 6 (.computed .string) .pnone ⟨false, []⟩ [] [])])
      rfl).2.2 (RObj.mk 6 (.computed .string) .pnone ⟨false, []⟩ [] [])
      rfl rfl⟩

/-- **C3** (amended).  For computed values whose declared element kind is
null, bool, number, string, object, dynamic, an array type or a class,
capture emits Output exactly when the computation has no free expression,
has exactly one dependency source, and that source is the resource object
being captured, and emits Computed otherwise, in both cases wrapping the
zero value of the declared element kind; a computed value of any other
declared element kind (such as a map type) fails with an invariant
violation instead of emitting anything. -/
theorem computed_dispatch_output_vs_computed (resobj : Option RObj)
    (oid : Nat) (prim : Prim) (comp : CompInfo) (arr : List RObj)
    (props : List (String × RObj)) (elem : LType)
    (helem : elemHandled elem = true) :
    copyObjectProperty resobj (.mk oid (.computed elem) prim comp arr props) =
      some (if specSelfDerived comp resobj then MakeOutput (specZero elem)
            else MakeComputed (specZero elem))
    ∧ (∀ elem' : LType, elemHandled elem' = false →
        copyObjectProperty resobj
          (.mk oid (.computed elem') prim comp arr props) = none) := by
  refine ⟨copyObjectProperty_computed_eq resobj oid prim comp arr props
    elem helem, ?_⟩
  intro elem' helem'
  cases elem' <;>
    simp_all [copyObjectProperty, elemHandled, isResourceTy]

/-- Witness for `computed_dispatch_output_vs_computed`: a self-derived
computed string yields Output(""), a computed bool with a free expression
yields Computed(false), and a computed map-typed value is an invariant
violation. -/
theorem computed_dispatch_witness :
    copyObjectProperty
        (some (RObj.mk 5 (.cls "res" true) .pnone ⟨false, []⟩ [] []))
        (RObj.mk 9 (.computed .string) .pnone ⟨false, [some 5]⟩ [] []) =
      some (MakeOutput (PropertyValue.string ""))
    ∧ copyObjectProperty
        (some (RObj.mk 5 (.cls "res" true) .pnone ⟨false, []⟩ [] []))
        (RObj.mk 9 (.computed .bool) .pnone ⟨true, [some 5]⟩ [] []) =
      some (MakeComputed (PropertyValue.bool false))
    ∧ copyObjectProperty
        (some (RObj.mk 5 (.cls "res" true) .pnone ⟨false, []⟩ [] []))
        (RObj.mk 9 (.computed (.mapTy .string .number)) .pnone
          ⟨false, [some 5]⟩ [] []) = none := by
  have h1 := (computed_dispatch_output_vs_computed
    (some (RObj.mk 5 (.cls "res" true) .pnone ⟨false, []⟩ [] []))
    9 .pnone ⟨false, [some 5]⟩ [] [] .string rfl).1
  have h2 := (computed_dispatch_output_vs_computed
    (some (RObj.mk 5 (.cls "res" true) .pnone ⟨false, []⟩ [] []))
    9 .pnone ⟨true, [some 5]⟩ [] [] .bool rfl).1
  have h3 := (computed_dispatch_output_vs_computed
    (some (RObj.mk 5 (.cls "res" true) .pnone ⟨false, []⟩ [] []))
    9 .pnone ⟨false, [some 5]⟩ [] [] .string rfl).2
    (.mapTy .string .number) rfl
  refine ⟨?_, ?_, h3⟩
  · simpa [specSelfDerived, sourceIsResObj, RObj.oid, specZero] using h1
  · simpa [specSelfDerived, specZero] using h2

/-- **C3** (counterexample to the claim as stated): a computed value whose
declared element kind is a map type, whose computation has no free
expression, and whose single dependency source is the resource object
being captured emits neither Output nor Computed — capture fails with an
invariant violation. -/
theorem computed_map_element_fails :
    copyObjectProperty
        (some (RObj.mk 5 (.cls "res" true) .pnone ⟨false, []⟩ [] []))
        (RObj.mk 9 (.computed (.mapTy .string .string)) .pnone
          ⟨false, [some 5]⟩ [] []) = none := rfl

/-- **C4.** Hydration writes an entry's value onto the destination
property only when that destination is currently null (or missing, in
which case it is initialized to null and then written); a destination
already holding a non-null value is left unchanged and the incoming value
is silently dropped. -/
theorem hydration_drop_if_set (obj obj' : RObj)
    (props : List (String × PropertyValue))
    (h : setRuntimeProperties obj props = some obj') :
    (∀ (k : String) (v : RObj), obj.getProp? k = some v → v.isNull = false →
        obj'.getProp? k = some v)
    ∧ (∀ (k : String) (pv : PropertyValue) (w : RObj),
        (k, pv) ∈ props → (props.map Prod.fst).Nodup →
        ((obj.getProp? k).getD rtNull).isNull = true →
        createRuntimeProperty pv = some w →
        obj'.getProp? k = some w) :=
  ⟨fun k v hg hn => setRuntimeProperties_preserve props obj obj' k v hg hn h,
    fun k pv w hm hnd hnull hw =>
      setRuntimeProperties_writes props obj obj' k pv w hm hnd hnull hw h⟩

/-- Witness for `hydration_drop_if_set`: hydrating a map with entries for
a non-null destination property "a" and a null destination property "b"
drops the incoming value for "a" and writes the one for "b". -/
theorem hydration_drop_if_set_witness :
    (RObj.mk 1 .dynamic .pnone ⟨false, []⟩ []
        [("a", rtString "x"), ("b", rtNumber 7)]).getProp? "a" =
      some (rtString "x")
    ∧ (RObj.mk 1 .dynamic .pnone ⟨false, []⟩ []
        [("a", rtString "x"), ("b", rtNumber 7)]).getProp? "b" =
      some (rtNumber 7) := by
  have h := hydration_drop_if_set
    (RObj.mk 1 .dynamic .pnone ⟨false, []⟩ [] [("a", rtString "x"), ("b", rtNull)])
    (RObj.mk 1 .dynamic .pnone ⟨false, []⟩ []
      [("a", rtString "x"), ("b", rtNumber 7)])
    [("a", PropertyValue.string "y"), ("b", PropertyValue.number 7)]
    rfl
  exact ⟨h.1 "a" (rtString "x") rfl rfl,
    h.2 "b" (PropertyValue.number 7) (rtNumber 7) (by simp) (by simp) rfl rfl⟩

/-- **C5** (evaluation at the failing input).  Capturing a property map
holding a function-typed property under key "f" does not omit the key: it
stores the zero property value (which is the null property) under "f".
Capturing a property of an unrecognized non-function type is an invariant
violation, as the claim states. -/
theorem function_property_entry_not_omitted :
    copyObjectProperties
        (some (RObj.mk 1 (.cls "res" true) .pnone ⟨false, []⟩ [] []))
        [("f", RObj.mk 2 .func .pnone ⟨false, []⟩ [] [])] =
      some [("f", PropertyValue.null)]
    ∧ copyObjectProperties
        (some (RObj.mk 1 (.cls "res" true) .pnone ⟨false, []⟩ [] []))
        [("p", RObj.mk 3 (.pointer .string) .pnone ⟨false, []⟩ [] [])] =
      none := ⟨rfl, rfl⟩

/-- **C6.** `SetURN` fails with an invariant violation when a URN is
already set; `SetID` fails with an invariant violation when the id
property already holds a concrete string, and succeeds, assigning the id,
when the id property is null, computed, or missing. -/
theorem urn_id_single_assignment (r : Object) (u id : String) :
    (HasURN r = true → r.SetURN u = none)
    ∧ (∀ v : RObj, r.obj.getProp? IDProperty = some v → v.isString = true →
        r.SetID id = none)
    ∧ ((((r.obj.getProp? IDProperty).getD rtNull).isNull ||
        ((r.obj.getProp? IDProperty).getD rtNull).isComputed) = true →
        ∃ r' : Object, r.SetID id = some r'
          ∧ r'.obj.getProp? IDProperty = some (rtString id)) := by
  refine ⟨?_, ?_, ?_⟩
  · intro h
    simp [Object.SetURN, h]
  · intro v hget hstr
    rw [Object.SetID]
    simp only [hget, Option.getD_some, isString_not_isNull v hstr,
      isString_not_isComputed v hstr, Bool.or_self, if_false]
    rfl
  · intro hcond
    refine ⟨{ r with obj := r.obj.setProp IDProperty (rtString id) }, ?_, ?_⟩
    · rw [Object.SetID]
      simp only [hcond, if_true]
    · exact getProp?_setProp_self _ _ _

/-- Witness for `urn_id_single_assignment`: a second `SetURN` fails, a
`SetID` over a concrete string id fails, and a `SetID` over a computed id
succeeds and assigns the id. -/
theorem urn_id_single_assignment_witness :
    Object.SetURN
        { urn := "urn:pulumi:s::a",
          obj := RObj.mk 1 (.cls "T" true) .pnone ⟨false, []⟩ [] [] }
        "urn:pulumi:s::b" = none
    ∧ Object.SetID
        { urn := "",
          obj := RObj.mk 1 (.cls "T" true) .pnone ⟨false, []⟩ []
            [("id", rtString "i0")] } "i1" = none
    ∧ (∃ r' : Object,
        Object.SetID
          { urn := "",
            obj := RObj.mk 1 (.cls "T" true) .pnone ⟨false, []⟩ []
              [("id", RObj.mk 2 (.computed .string) .pnone ⟨false, []⟩ [] [])] }
          "i1" = some r'
        ∧ r'.obj.getProp? IDProperty = some (rtString "i1")) :=
  ⟨(urn_id_single_assignment
      { urn := "urn:pulumi:s::a",
        obj := RObj.mk 1 (.cls "T" true) .pnone ⟨false, []⟩ [] [] }
      "urn:pulumi:s::b" "i1").1 rfl,
    (urn_id_single_assignment
      { urn := "",
        obj := RObj.mk 1 (.cls "T" true) .pnone ⟨false, []⟩ []
          [("id", rtString "i0")] }
      "u" "i1").2.1 (rtString "i0") rfl rfl,
    (urn_id_single_assignment
      { urn := "",
        obj := RObj.mk 1 (.cls "T" true) .pnone ⟨false, []⟩ []
          [("id", RObj.mk 2 (.computed .string) .pnone ⟨false, []⟩ [] [])] }
      "u" "i1").2.2 rfl⟩

/-- **C7** (evaluation at the failing input).  On a resource object whose
id property holds a computed value, `HasID()` returns true and yet `ID()`
fails its IsString assertion with an invariant violation, so checking
`HasID()` first is not sufficient to read the ID safely. -/
theorem hasid_true_but_id_fails :
    Object.HasID
        { urn := "urn:pulumi:s::r",
          obj := RObj.mk 1 (.cls "res" true) .pnone ⟨false, []⟩ []
            [("id", RObj.mk 2 (.computed .string) .pnone ⟨false, []⟩ [] [])] } =
      some true
    ∧ Object.ID
        { urn := "urn:pulumi:s::r",
          obj := RObj.mk 1 (.cls "res" true) .pnone ⟨false, []⟩ []
            [("id", RObj.mk 2 (.computed .string) .pnone ⟨false, []⟩ [] [])] } =
      none := ⟨rfl, rfl⟩

/-- **C8.** Without force, the stack import collects one error per
resource whose URN's embedded stack name differs from the target stack
(never failing fast), and fails with all collected mismatches plus the
closing advice to rerun with --force exactly when at least one mismatch
exists; with force, every mismatch yields only a warning and the import
proceeds. -/
theorem stack_import_mismatch_policy (target : String)
    (resources : List SnapResource) :
    stackImportCheck false target resources =
      (if (resources.filter fun r => urnStack r.urn != target).isEmpty then
        ImportOutcome.proceed []
      else
        ImportOutcome.fail
          (((resources.filter fun r => urnStack r.urn != target).map
            fun r => mismatchMsg r.urn target) ++ [forceAdvice]))
    ∧ stackImportCheck true target resources =
        ImportOutcome.proceed
          ((resources.filter fun r => urnStack r.urn != target).map
            fun r => mismatchMsg r.urn target) := by
  constructor
  · rw [stackImportCheck, collectMismatches_false_eq]
    cases h : (resources.filter fun r => urnStack r.urn != target) with
    | nil => simp [h]
    | cons a rest => simp [h]
  · rw [stackImportCheck, collectMismatches_true_eq]
    simp

/-- **C9.** Every pending-operation entry of the imported snapshot is
removed before the deployment is re-serialized, with exactly one warning
per stripped entry (in order), the resources being untouched; the
resulting deployment carries no pending operations. -/
theorem pending_operations_always_stripped (s : Snapshot) :
    (stripPendingOperations s).1.pendingOperations = []
    ∧ (stripPendingOperations s).2 = s.pendingOperations.map pendingOpMsg
    ∧ (stripPendingOperations s).1.resources = s.resources := by
  obtain ⟨rs, ops⟩ := s
  cases ops <;> simp [stripPendingOperations]

/-- One-step characterization of the array case of `copyObjectProperty`
on a singleton array (recursive element calls use a nil context). -/
theorem copyObjectProperty_array_case (resobj : Option RObj) (aid : Nat)
    (ety : LType) (c : RObj) (pv : PropertyValue)
    (hc : copyObjectProperty none c = some pv) :
    copyObjectProperty resobj
        (.mk aid (.array ety) .pnone ⟨false, []⟩ [c] []) =
      some (.array [pv]) := by
  simp [copyObjectProperty, copyArray, hc, isResourceTy]

/-- One-step characterization of the map-type case of
`copyObjectProperty` on a single entry (recursive calls use a nil
context). -/
theorem copyObjectProperty_map_case (resobj : Option RObj) (mid : Nat)
    (dom cod : LType) (k : String) (c : RObj) (pv : PropertyValue)
    (hc : copyObjectProperty none c = some pv) :
    copyObjectProperty resobj
        (.mk mid (.mapTy dom cod) .pnone ⟨false, []⟩ [] [(k, c)]) =
      some (.object [(k, pv)]) := by
  simp [copyObjectProperty, copyObjectProperties, hc, isResourceTy]

/-- One-step characterization of the object-literal case of
`copyObjectProperty` on a single entry (recursive calls use a nil
context). -/
theorem copyObjectProperty_object_case (resobj : Option RObj) (lid : Nat)
    (k : String) (c : RObj) (pv : PropertyValue)
    (hc : copyObjectProperty none c = some pv) :
    copyObjectProperty resobj
        (.mk lid .object .pnone ⟨false, []⟩ [] [(k, c)]) =
      some (.object [(k, pv)]) := by
  simp [copyObjectProperty, copyObjectProperties, hc, isResourceTy]

/-- One-step characterization of the class-instance case of
`copyObjectProperty` on a single entry (recursive calls use a nil
context). -/
theorem copyObjectProperty_cls_case (resobj : Option RObj) (did : Nat)
    (nm : String) (k : String) (c : RObj) (pv : PropertyValue)
    (hc : copyObjectProperty none c = some pv) :
    copyObjectProperty resobj
        (.mk did (.cls nm false) .pnone ⟨false, []⟩ [] [(k, c)]) =
      some (.object [(k, pv)]) := by
  simp [copyObjectProperty, copyObjectProperties, hc, isResourceTy]

/-- **C10** (counterexample to the claim as stated): not every computed
value nested below the top level is emitted as Computed.  A computed
value inside an array element whose computation has no free expression
and whose single dependency source is the nil pointer is emitted as
Output — the recursive call's nil resource-object context pointer-equals
the nil source; and a nested computed value of map element kind emits
neither Computed nor Output but fails with an invariant violation. -/
theorem nested_computed_counterexample :
    copyObjectProperty
        (some (RObj.mk 5 (.cls "res" true) .pnone ⟨false, []⟩ [] []))
        (RObj.mk 11 (.array (.computed .string)) .pnone ⟨false, []⟩
          [RObj.mk 9 (.computed .string) .pnone ⟨false, [none]⟩ [] []] []) =
      some (.array [MakeOutput (PropertyValue.string "")])
    ∧ copyObjectProperty
        (some (RObj.mk 5 (.cls "res" true) .pnone ⟨false, []⟩ [] []))
        (RObj.mk 11 (.array (.computed (.mapTy .string .string))) .pnone
          ⟨false, []⟩
          [RObj.mk 9 (.computed (.mapTy .string .string)) .pnone
            ⟨false, [some 5]⟩ [] []] []) = none := ⟨rfl, rfl⟩

/-- **C10** (amended).  Every recursive capture call (array element, map
entry, object literal, class-instance clone) replaces the resource-object
context by nil, so for a nested computed value of a handled element kind
the Output test is evaluated against the nil context: it emits Output
exactly when its computation has no free expression and its single
dependency source is the nil pointer, and Computed in every other case;
in particular a nested computed value whose single dependency source is
the (non-nil) resource object being captured is emitted as Computed,
never Output, in all four nesting contexts. -/
theorem nested_computed_nil_context (r : RObj) (elem : LType) (cid : Nat)
    (prim : Prim) (comp : CompInfo) (k nm : String) (aid mid lid did : Nat)
    (helem : elemHandled elem = true) :
    copyObjectProperty none
        (RObj.mk cid (.computed elem) prim comp [] []) =
      some (if specSelfDerived comp none then MakeOutput (specZero elem)
            else MakeComputed (specZero elem))
    ∧ (comp.sources = [some r.oid] →
        copyObjectProperty (some r)
            (RObj.mk aid (.array (.computed elem)) .pnone ⟨false, []⟩
              [RObj.mk cid (.computed elem) prim comp [] []] []) =
          some (.array [MakeComputed (specZero elem)])
        ∧ copyObjectProperty (some r)
            (RObj.mk mid (.mapTy .string (.computed elem)) .pnone ⟨false, []⟩
              [] [(k, RObj.mk cid (.computed elem) prim comp [] [])]) =
          some (.object [(k, MakeComputed (specZero elem))])
        ∧ copyObjectProperty (some r)
            (RObj.mk lid .object .pnone ⟨false, []⟩ []
              [(k, RObj.mk cid (.computed elem) prim comp [] [])]) =
          some (.object [(k, MakeComputed (specZero elem))])
        ∧ copyObjectProperty (some r)
            (RObj.mk did (.cls nm false) .pnone ⟨false, []⟩ []
              [(k, RObj.mk cid (.computed elem) prim comp [] [])]) =
          some (.object [(k, MakeComputed (specZero elem))])) := by
  refine ⟨copyObjectProperty_computed_eq none cid prim comp [] [] elem helem,
    ?_⟩
  intro hsrc
  have h1 : copyObjectProperty none
      (RObj.mk cid (.computed elem) prim comp [] []) =
      some (MakeComputed (specZero elem)) := by
    rw [copyObjectProperty_computed_eq none cid prim comp [] [] elem helem]
    simp [specSelfDerived, hsrc, sourceIsResObj]
  exact ⟨copyObjectProperty_array_case _ aid (.computed elem) _ _ h1,
    copyObjectProperty_map_case _ mid .string (.computed elem) k _ _ h1,
    copyObjectProperty_object_case _ lid k _ _ h1,
    copyObjectProperty_cls_case _ did nm k _ _ h1⟩

/-- Witness for `nested_computed_nil_context` at a concrete resource, a
string element kind, and a computed payload whose single source is the
resource being captured. -/
theorem nested_computed_nil_context_witness :
    copyObjectProperty none
        (RObj.mk 9 (.computed .string) .pnone ⟨false, [some 5]⟩ [] []) =
      some (MakeComputed (specZero .string))
    ∧ copyObjectProperty
        (some (RObj.mk 5 (.cls "res" true) .pnone ⟨false, []⟩ [] []))
        (RObj.mk 11 (.array (.computed .string)) .pnone ⟨false, []⟩
          [RObj.mk 9 (.computed .string) .pnone ⟨false, [some 5]⟩ [] []] []) =
      some (.array [MakeComputed (specZero .string)])
    ∧ copyObjectProperty
        (some (RObj.mk 5 (.cls "res" true) .pnone ⟨false, []⟩ [] []))
        (RObj.mk 12 (.mapTy .string (.computed .string)) .pnone ⟨false, []⟩ []
          [("k", RObj.mk 9 (.computed .string) .pnone ⟨false, [some 5]⟩ [] [])]) =
      some (.object [("k", MakeComputed (specZero .string))])
    ∧ copyObjectProperty
        (some (RObj.mk 5 (.cls "res" true) .pnone ⟨false, []⟩ [] []))
        (RObj.mk 13 .object .pnone ⟨false, []⟩ []
          [("k", RObj.mk 9 (.computed .string) .pnone ⟨false, [some 5]⟩ [] [])]) =
      some (.object [("k", MakeComputed (specZero .string))])
    ∧ copyObjectProperty
        (some (RObj.mk 5 (.cls "res" true) .pnone ⟨false, []⟩ [] []))
        (RObj.mk 14 (.cls "C" false) .pnone ⟨false, []⟩ []
          [("k", RObj.mk 9 (.computed .string) .pnone ⟨false, [some 5]⟩ [] [])]) =
      some (.object [("k", MakeComputed (specZero .string))]) := by
  have h := nested_computed_nil_context
    (RObj.mk 5 (.cls "res" true) .pnone ⟨false, []⟩ [] [])
    .string 9 .pnone ⟨false, [some 5]⟩ "k" "C" 11 12 13 14 rfl
  have h2 := h.2 rfl
  exact ⟨by simpa [specSelfDerived, sourceIsResObj] using h.1,
    h2.1, h2.2.1, h2.2.2.1, h2.2.2.2⟩
